import Mathlib

/-!
Verification development for the `ai-patient-assistant` backend
(`backend/main.py` and `backend/rag.py`).

The Python code is shallowly embedded: Python strings are Lean `String`s
(reasoned about through their `List Char` data), pure helper functions are
Lean functions, and the two external services (the embedding service and the
chat-completion service) together with file I/O are passed in as explicit
parameters, so that every request-handling path of the code is a total
function of its inputs and the outcomes of those external calls.
-/

/-! ### Python string primitives

`str.strip`, `str.lower`, `str.split("\n")`, `str.replace` (for the
single-character patterns the code uses) and `"sep".join` are embedded
directly on the character list underlying a string. -/

/-- The ASCII whitespace characters recognised by Python's `str.strip()`. -/
def isPySpace (c : Char) : Bool :=
  c == ' ' || c == '\t' || c == '\n' || c == '\r' || c == '\x0b' || c == '\x0c'

/-- `str.strip()` on the underlying character list: drop whitespace from
both ends. -/
def pyStripL (s : List Char) : List Char :=
  ((s.dropWhile isPySpace).reverse.dropWhile isPySpace).reverse

/-- Embedding of Python `str.strip()`. -/
def pyStrip (s : String) : String := ⟨pyStripL s.data⟩

/-- Embedding of Python `str.lower()` (ASCII range; every string the code
compares against is ASCII). -/
def pyLowerChar (c : Char) : Char :=
  if 'A' ≤ c && c ≤ 'Z' then Char.ofNat (c.toNat + 32) else c

/-- Embedding of Python `str.lower()`. -/
def pyLower (s : String) : String := ⟨s.data.map pyLowerChar⟩

/-- Embedding of Python `s.split("\n")` on the underlying character list:
`""` splits to `[""]`, and a trailing newline yields a trailing `""`. -/
def splitLinesL : List Char → List (List Char)
  | [] => [[]]
  | c :: cs =>
    if c = '\n' then [] :: splitLinesL cs
    else
      match splitLinesL cs with
      | [] => [[c]]
      | l :: ls => (c :: l) :: ls

/-- Embedding of Python `s.replace(a, b)` for a single-character pattern and
single-character replacement (the only form `normalize_text` and `_clean`
use), which is a character map. -/
def replaceChar (a b : Char) (s : List Char) : List Char :=
  s.map fun c => if c = a then b else c

/-- Embedding of Python `"sep".join(parts)`. -/
def pyJoin (sep : String) : List String → String
  | [] => ""
  | [x] => x
  | x :: y :: xs => x ++ sep ++ pyJoin sep (y :: xs)

/-! ### `backend/main.py` -/

/-- `ALLOWED_KEYWORDS` from `backend/main.py`. -/
def ALLOWED_KEYWORDS : List String :=
  ["signifier", "sleep", "apnea", "device", "therapy", "tongue", "usage", "use",
   "setup", "install", "pair", "charge", "battery", "clean", "maintain", "maintenance",
   "support", "appointment", "book", "reschedule", "cancel", "hours", "contact", "warranty",
   "replacement", "spare", "parts", "manual", "guide", "troubleshoot", "error", "issue"]

/-- `in_scope` from `backend/main.py`: some allowed keyword occurs as a
contiguous substring of the lowercased question. -/
def in_scope (q : String) : Bool :=
  let ql := pyLower q
  ALLOWED_KEYWORDS.any fun k => decide (k.data <:+: ql.data)

/-- `normalize_text` from `backend/main.py`: replace curly quotes and
non-breaking spaces by ASCII equivalents (all single-character
replacements, applied in the source's dict order), then strip. -/
def normalize_text (s : String) : String :=
  pyStrip ⟨replaceChar ' ' ' '
            (replaceChar '”' '\"'
              (replaceChar '“' '\"'
                (replaceChar '‘' '\x27'
                  (replaceChar '’' '\x27' s.data))))⟩

/-- The fixed reply for a blank question. -/
def empty_prompt_reply : String :=
  "Please enter a question about the Signifier device or support."

/-- The fixed out-of-scope refusal reply. -/
def scope_refusal_reply : String :=
  "I can help with the Signifier sleep therapy device and support only (setup, usage, troubleshooting, appointments). For other topics, please contact your clinician."

/-- The fixed reply returned when the chat-completion call fails. -/
def demo_reply : String :=
  "I can help with the Signifier device and support only. For medical or out-of-scope questions, please contact your clinician."

/-! ### `backend/rag.py` -/

/-- Does the stripped line start with `#`? (`line.strip().startswith("#")`). -/
def headIsHash (l : List Char) : Bool :=
  match l with
  | '#' :: _ => true
  | _ => false

/-- `parts.append(buf.strip()); buf = ""` guarded by a condition; state is
`(parts, buf)`. -/
def flushIf (cond : Bool) (st : List (List Char) × List Char) :
    List (List Char) × List Char :=
  if cond then (st.1 ++ [pyStripL st.2], ([] : List Char)) else st

/-- One loop iteration of `_chunk_markdown`: flush the buffer at a heading,
flush it when appending the line would exceed `max_chars`, then append the
line plus a newline. -/
def chunkStep (max_chars : Nat) (st : List (List Char) × List Char) (line : List Char) :
    List (List Char) × List Char :=
  let st1 := flushIf (headIsHash (pyStripL line) && !st.2.isEmpty) st
  let st2 := flushIf (decide (st1.2.length + line.length + 1 > max_chars)) st1
  (st2.1, st2.2 ++ line ++ ['\n'])

/-- After the loop: `if buf.strip(): parts.append(buf.strip())`. -/
def chunkFinal (st : List (List Char) × List Char) : List (List Char) :=
  if !(pyStripL st.2).isEmpty then st.1 ++ [pyStripL st.2] else st.1

/-- The `parts` list of `_chunk_markdown` after the trailing-buffer append
and the final `[p for p in parts if p.strip()]` filter. -/
def chunkParts (lines : List (List Char)) (max_chars : Nat) : List (List Char) :=
  (chunkFinal (lines.foldl (chunkStep max_chars) ([], []))).filter
    fun p => !(pyStripL p).isEmpty

/-- `_chunk_markdown` from `backend/rag.py`. -/
def _chunk_markdown (md : String) (max_chars : Nat) : List String :=
  (chunkParts (splitLinesL md.data) max_chars).map fun l => (⟨l⟩ : String)

/-- Length of the longest line of the input (used to state the chunk-length
bound). -/
def maxLineLen (md : String) : Nat :=
  ((splitLinesL md.data).map List.length).foldr max 0

/-- Collapsing every whitespace run to a single space
(`re.sub(r"\s+", " ", text)`); the flag records whether the previous kept
character position was inside a whitespace run. -/
def collapseWSGo (prevSpace : Bool) : List Char → List Char
  | [] => []
  | c :: cs =>
    if isPySpace c then
      if prevSpace then collapseWSGo true cs else ' ' :: collapseWSGo true cs
    else c :: collapseWSGo false cs

/-- `_clean` from `backend/rag.py`: replace non-breaking spaces, drop `\r`,
collapse whitespace runs, strip. -/
def _clean (text : String) : String :=
  pyStrip ⟨collapseWSGo false
    ((replaceChar ' ' ' ' text.data).filter fun c => c ≠ '\r')⟩

/-- A record of the persisted store (`{"id": ..., "text": ..., "embedding": ...}`).
Embedding coordinates are abstracted as rationals. -/
structure StoreRec where
  id : String
  text : String
  embedding : List ℚ
deriving DecidableEq, Repr

/-- Stable descending insertion by score.  Python's `list.sort(key=lambda x:
x[1], reverse=True)` is specified to be a stable descending sort by the key,
and a stable sort's output is uniquely determined by that specification, so
any stable descending sort is an exact embedding of it. -/
def insertByScore (x : String × ℚ) : List (String × ℚ) → List (String × ℚ)
  | [] => [x]
  | y :: ys => if y.2 ≤ x.2 then x :: y :: ys else y :: insertByScore x ys

/-- Stable descending sort by score (`scored.sort(key=lambda x: x[1],
reverse=True)`). -/
def sortDescByScore : List (String × ℚ) → List (String × ℚ)
  | [] => []
  | x :: xs => insertByScore x (sortDescByScore xs)

/-- `retrieve` from `backend/rag.py`.  The store file is `none` when absent,
otherwise `some` of its parsed records.  `score` stands for
`lambda v: _cosine(q_emb, v)`: the query embedding comes from an external
service call and `_cosine` computes on floating-point vectors, so the scoring
of one stored embedding is taken as a parameter; the claims proved below
concern the ranking, not particular score values. -/
def retrieve (store : Option (List StoreRec)) (score : List ℚ → ℚ) (k : Nat) :
    List (String × ℚ) :=
  match store with
  | none => []
  | some recs =>
    (sortDescByScore (recs.map fun r => (r.text, score r.embedding))).take k

/-- The citation entry for 1-based index `i`:
`f"[{i}]" + " " + text.split("\n")[0][:80].strip()`. -/
def citeOf (i : Nat) (text : String) : String :=
  "[" ++ toString i ++ "]" ++ " " ++ pyStrip ⟨((splitLinesL text.data).headD []).take 80⟩

/-- The context line for 1-based index `i`: `f"[{i}] {text}"`. -/
def lineOf (i : Nat) (text : String) : String :=
  "[" ++ toString i ++ "]" ++ " " ++ text

/-- The citation list accumulated by the loop of `build_context_snippets`,
starting at index `i`. -/
def buildCites (i : Nat) : List (String × ℚ) → List String
  | [] => []
  | (text, _) :: rest => citeOf i text :: buildCites (i + 1) rest

/-- The context lines accumulated by the loop of `build_context_snippets`,
starting at index `i`. -/
def buildLines (i : Nat) : List (String × ℚ) → List String
  | [] => []
  | (text, _) :: rest => lineOf i text :: buildLines (i + 1) rest

/-- `build_context_snippets` from `backend/rag.py`: the double-newline join
of the context lines, paired with the citation list (`enumerate(snips,
start=1)`). -/
def build_context_snippets (snips : List (String × ℚ)) : String × List String :=
  (pyJoin "\n\n" (buildLines 1 snips), buildCites 1 snips)

/-- Outcome of one `ingest_faqs` run: the returned value or raised error,
together with the successive observable contents of the store file
(`none` = file absent). -/
structure IngestOutcome where
  result : Except String Nat
  states : List (Option String)
deriving Repr

/-- `ingest_faqs` from `backend/rag.py`.  File I/O and the embedding call
are passed in: `faqContent` is the FAQ file content (`none` when the file is
missing, in which case the code raises before touching the store),
`embedOk` the outcome of the batched embedding call (a failure propagates
before the store is touched), `prev` the store file content before the run,
and `dump` the JSON serialization of the record payload.  The write is
`open(store_path, "w")` followed by `json.dump(...)`: opening with mode
`"w"` truncates the store file in place and the dump then writes the
payload, so on the success path a concurrent reader can observe, in order,
the previous content, a truncated (empty) file, and then the new payload. -/
def ingest_faqs (faqContent : Option String) (embedOk : Bool)
    (dump : List String → String) (prev : Option String) : IngestOutcome :=
  match faqContent with
  | none => ⟨.error "FAQ file not found", [prev]⟩
  | some md =>
    let chunks := (_chunk_markdown md 900).map _clean
    if embedOk then
      ⟨.ok chunks.length, [prev, some "", some (dump chunks)]⟩
    else
      ⟨.error "embedding call failed", [prev]⟩

/-! ### The `/inquiry` endpoint (`backend/main.py`) -/

/-- The response dictionary of the `/inquiry` endpoint.  `citations`,
`note` and `error` are `none` when the corresponding key is absent from the
returned dict. -/
structure InquiryResponse where
  answer : String
  citations : Option (List String)
  note : Option String
  error : Option String
deriving DecidableEq, Repr

/-- Outcome of the `client.chat.completions.create` call. -/
inductive GenResult where
  | ok (text : String)
  | err (msg : String)
deriving DecidableEq, Repr

/-- The `try: results = retrieve(q, k=4); ... except: context_block = "";
cites_list = []` block: `retr` is the retrieval outcome, `none` when
`retrieve` (whose embedding call can fail) raised. -/
def contextAndCites (retr : Option (List (String × ℚ))) : String × List String :=
  match retr with
  | some results => build_context_snippets results
  | none => ("", [])

/-- The fixed refusal response of the scope gate. -/
def refusalResponse : InquiryResponse := ⟨scope_refusal_reply, none, none, none⟩

/-- The fixed response to a blank question. -/
def emptyResponse : InquiryResponse := ⟨empty_prompt_reply, none, none, none⟩

/-- The `inquiry` endpoint handler from `backend/main.py`, as a function of
the retrieval outcome and the chat-completion outcome. -/
def inquiry (retr : Option (List (String × ℚ))) (gen : GenResult)
    (question : String) : InquiryResponse :=
  let q := pyStrip question
  if q = "" then emptyResponse
  else if in_scope q then
    let cc := contextAndCites retr
    match gen with
    | .ok t => ⟨normalize_text t, some cc.2, none, none⟩
    | .err e => ⟨demo_reply, some cc.2, some "demo_fallback", some e⟩
  else refusalResponse

/-! ### Spec-modelled scope classifier vocabulary matching

The specification (§4.6) describes the scope stage as token-based: lowercase
alphabetic word tokens, compared against the allowed-topic vocabulary either
exactly or by an edit-distance-based string-similarity ratio with a
configured cutoff (0.76–0.80).  No such tokenizer or similarity metric
exists anywhere in the source; the definitions below follow the spec's words
so that the spec's classification criterion can be compared with the actual
gate `in_scope`. -/

/-- Modelled from the spec: split into maximal runs of alphabetic
characters (the spec's "lowercase alphabetic word tokens"; the accumulator
holds the current run reversed). -/
def alphaTokensGo (cur : List Char) : List Char → List (List Char)
  | [] => if cur.isEmpty then [] else [cur.reverse]
  | c :: cs =>
    if c.isAlpha then alphaTokensGo (c :: cur) cs
    else if cur.isEmpty then alphaTokensGo [] cs
    else cur.reverse :: alphaTokensGo [] cs

/-- Modelled from the spec: the lowercase alphabetic word tokens of a
question. -/
def specTokens (q : String) : List (List Char) :=
  alphaTokensGo [] (pyLower q).data

/-- One dynamic-programming row step for the longest common subsequence:
given the previous row (tail `prevTail`, diagonal `diag`, left neighbour
`left`) and the remaining characters of `b`, produce the rest of the new
row. -/
def lcsRowGo (c : Char) : List Char → Nat → Nat → List Nat → List Nat
  | [], _, _, _ => []
  | _, _, _, [] => []
  | bc :: bs, diag, left, up :: rest =>
    let cur := if bc = c then diag + 1 else max left up
    cur :: lcsRowGo c bs up cur rest

/-- Length of a longest common subsequence of two character lists
(row-based dynamic programming). -/
def lcsLen (a b : List Char) : Nat :=
  let final := a.foldl
    (fun row c =>
      match row with
      | [] => []
      | p0 :: ptail => 0 :: lcsRowGo c b p0 0 ptail)
    (List.replicate (b.length + 1) 0)
  final.getLastD 0

/-- Modelled from the spec: the edit-distance-based string-similarity
ratio `2 * M / (|a| + |b|)` (difflib-style, with `M` the length of a
longest common subsequence) is at least the cutoff `cnum / cden`, written
by cross-multiplication so the comparison stays in `ℕ`. -/
def specCloseGe (cnum cden : Nat) (a b : List Char) : Bool :=
  cnum * (a.length + b.length) ≤ 2 * lcsLen a b * cden

/-- Modelled from the spec: a token matches the allowed-topic vocabulary
exactly or within the similarity cutoff `cnum / cden`. -/
def specTokenMatch (cnum cden : Nat) (tok : List Char) : Bool :=
  ALLOWED_KEYWORDS.any fun k => tok == k.data || specCloseGe cnum cden tok k.data

/-- Modelled from the spec: no token of the question matches the
allowed-topic vocabulary, exactly or fuzzily, at cutoff `cnum / cden` — the
spec's `OutOfScope` criterion. -/
def noVocabTokenMatch (cnum cden : Nat) (q : String) : Bool :=
  (specTokens q).all fun t => !specTokenMatch cnum cden t

example : in_scope "How do I pair my device via Bluetooth?" = true := by decide
example : in_scope "hello" = false := by decide
example : in_scope "Is the LED solid green?" = false := by decide
example : in_scope "museum" = true := by decide
example : pyStrip "  hi \n" = "hi" := by decide
example : _chunk_markdown "hi" 900 = ["hi"] := by decide
example : inquiry (some []) (.ok "ans") "hello" = refusalResponse := by decide
example : lcsLen "museum".data "use".data = 3 := by decide
example : lcsLen "devise".data "device".data = 5 := by decide
example : noVocabTokenMatch 76 100 "museum" = true := by decide
example : noVocabTokenMatch 76 100 "Is the museum open today?" = true := by decide
example : noVocabTokenMatch 76 100 "devise" = false := by decide
example : noVocabTokenMatch 80 100 "devise" = false := by decide
example : specTokens "Is the museum open?" = ["is".data, "the".data, "museum".data, "open".data] := by decide

/-! ### Lemmas about the stable descending sort -/

lemma insertByScore_perm (x : String × ℚ) (l : List (String × ℚ)) :
    List.Perm (insertByScore x l) (x :: l) := by
  induction l with
  | nil => rfl
  | cons y ys ih =>
    by_cases h : y.2 ≤ x.2
    · simp [insertByScore, h]
    · rw [insertByScore, if_neg h]
      exact (ih.cons y).trans (List.Perm.swap x y ys)

lemma mem_insertByScore {a x : String × ℚ} {l : List (String × ℚ)}
    (h : a ∈ insertByScore x l) : a = x ∨ a ∈ l := by
  have := (insertByScore_perm x l).mem_iff.mp h
  simpa using this

lemma pairwise_insertByScore (x : String × ℚ) (l : List (String × ℚ))
    (h : l.Pairwise fun a b => b.2 ≤ a.2) :
    (insertByScore x l).Pairwise fun a b => b.2 ≤ a.2 := by
  induction l with
  | nil => simp [insertByScore]
  | cons y ys ih =>
    obtain ⟨hy, hys⟩ := List.pairwise_cons.mp h
    by_cases hle : y.2 ≤ x.2
    · rw [insertByScore, if_pos hle]
      refine List.pairwise_cons.mpr ⟨?_, h⟩
      intro b hb
      rcases List.mem_cons.mp hb with rfl | hb
      · exact hle
      · exact (hy b hb).trans hle
    · rw [insertByScore, if_neg hle]
      refine List.pairwise_cons.mpr ⟨?_, ih hys⟩
      intro b hb
      rcases mem_insertByScore hb with rfl | hb
      · exact le_of_not_le hle
      · exact hy b hb

lemma pairwise_sortDescByScore (l : List (String × ℚ)) :
    (sortDescByScore l).Pairwise fun a b => b.2 ≤ a.2 := by
  induction l with
  | nil => simp [sortDescByScore]
  | cons x xs ih => exact pairwise_insertByScore x _ ih

lemma sortDescByScore_perm (l : List (String × ℚ)) : List.Perm (sortDescByScore l) l := by
  induction l with
  | nil => rfl
  | cons x xs ih => exact (insertByScore_perm x _).trans (ih.cons x)

lemma filter_insertByScore (c : ℚ) (x : String × ℚ) (l : List (String × ℚ)) :
    (insertByScore x l).filter (fun z => z.2 == c) =
      if x.2 == c then x :: l.filter (fun z => z.2 == c)
      else l.filter (fun z => z.2 == c) := by
  induction l with
  | nil => simp [insertByScore, List.filter_cons]
  | cons y ys ih =>
    by_cases hle : y.2 ≤ x.2
    · rw [insertByScore, if_pos hle]
      simp [List.filter_cons]
    · rw [insertByScore, if_neg hle]
      by_cases hx : (x.2 == c) = true
      · have hy : (y.2 == c) = false := by
          rw [beq_eq_false_iff_ne]
          intro hyc
          exact hle (le_of_eq (hyc.trans (eq_of_beq hx).symm))
        simp [List.filter_cons, ih, hx, hy]
      · simp [List.filter_cons, ih, hx]

lemma filter_sortDescByScore (c : ℚ) (l : List (String × ℚ)) :
    (sortDescByScore l).filter (fun z => z.2 == c) = l.filter (fun z => z.2 == c) := by
  induction l with
  | nil => rfl
  | cons x xs ih =>
    rw [sortDescByScore, filter_insertByScore, ih, List.filter_cons]

/-- C4: for every persisted store with `n` records and every `k ≥ 1`,
`retrieve` returns exactly `min k n` ranked results, sorted non-increasing
by score; elements of any fixed score value appear as a prefix of their
occurrence sequence in store order (stable ties); with no store file it
returns `[]` rather than raising. -/
theorem retrieve_spec (recs : List StoreRec) (score : List ℚ → ℚ) (k : Nat) (c : ℚ)
    (_hk : 1 ≤ k) :
    retrieve none score k = [] ∧
    (retrieve (some recs) score k).length = min k recs.length ∧
    ((retrieve (some recs) score k).Pairwise fun a b => b.2 ≤ a.2) ∧
    (retrieve (some recs) score k).filter (fun z => z.2 == c) <+:
      ((recs.map fun r => (r.text, score r.embedding)).filter fun z => z.2 == c) := by
  refine ⟨rfl, ?_, ?_, ?_⟩
  · show ((sortDescByScore _).take k).length = _
    rw [List.length_take, (sortDescByScore_perm _).length_eq, List.length_map]
  · exact (pairwise_sortDescByScore _).sublist (List.take_sublist _ _)
  · show ((sortDescByScore (recs.map fun r => (r.text, score r.embedding))).take k).filter _ <+: _
    rw [← filter_sortDescByScore c (recs.map fun r => (r.text, score r.embedding))]
    conv_rhs =>
      rw [← List.take_append_drop k
        (sortDescByScore (recs.map fun r => (r.text, score r.embedding))), List.filter_append]
    exact List.prefix_append _ _

theorem retrieve_spec_witness :
    1 ≤ 1 ∧
    (retrieve none (fun v => v.headD 0) 1 = [] ∧
     (retrieve (some [⟨"id0", "battery care", [(1 : ℚ)]⟩]) (fun v => v.headD 0) 1).length =
       min 1 [(⟨"id0", "battery care", [(1 : ℚ)]⟩ : StoreRec)].length ∧
     ((retrieve (some [⟨"id0", "battery care", [(1 : ℚ)]⟩]) (fun v => v.headD 0) 1).Pairwise
        fun a b => b.2 ≤ a.2) ∧
     (retrieve (some [⟨"id0", "battery care", [(1 : ℚ)]⟩]) (fun v => v.headD 0) 1).filter
         (fun z => z.2 == (1 : ℚ)) <+:
       (([⟨"id0", "battery care", [(1 : ℚ)]⟩] : List StoreRec).map
           (fun r => (r.text, (fun v => v.headD 0) r.embedding))).filter fun z => z.2 == (1 : ℚ)) :=
  ⟨by decide,
   retrieve_spec [⟨"id0", "battery care", [(1 : ℚ)]⟩] (fun v => v.headD 0) 1 1 (by decide)⟩

/-! ### Lemmas about the context assembler -/

lemma length_buildCites (i : Nat) (l : List (String × ℚ)) :
    (buildCites i l).length = l.length := by
  induction l generalizing i with
  | nil => rfl
  | cons x xs ih => obtain ⟨t, s⟩ := x; simp [buildCites, ih]

lemma length_buildLines (i : Nat) (l : List (String × ℚ)) :
    (buildLines i l).length = l.length := by
  induction l generalizing i with
  | nil => rfl
  | cons x xs ih => obtain ⟨t, s⟩ := x; simp [buildLines, ih]

lemma get_buildCites (l : List (String × ℚ)) (i j : Nat) (hj : j < (buildCites i l).length)
    (hj' : j < l.length) :
    (buildCites i l).get ⟨j, hj⟩ = citeOf (i + j) (l.get ⟨j, hj'⟩).1 := by
  induction l generalizing i j with
  | nil => exact absurd hj' (by simp)
  | cons x xs ih =>
    obtain ⟨t, s⟩ := x
    cases j with
    | zero => simp [buildCites]
    | succ j =>
      have hj2 : j < (buildCites (i + 1) xs).length := by
        simpa [buildCites] using hj
      have hj2' : j < xs.length := by simpa using hj'
      have := ih (i + 1) j hj2 hj2'
      simpa [buildCites, Nat.add_assoc, Nat.add_comm 1 j] using this

lemma get_buildLines (l : List (String × ℚ)) (i j : Nat) (hj : j < (buildLines i l).length)
    (hj' : j < l.length) :
    (buildLines i l).get ⟨j, hj⟩ = lineOf (i + j) (l.get ⟨j, hj'⟩).1 := by
  induction l generalizing i j with
  | nil => exact absurd hj' (by simp)
  | cons x xs ih =>
    obtain ⟨t, s⟩ := x
    cases j with
    | zero => simp [buildLines]
    | succ j =>
      have hj2 : j < (buildLines (i + 1) xs).length := by
        simpa [buildLines] using hj
      have hj2' : j < xs.length := by simpa using hj'
      have := ih (i + 1) j hj2 hj2'
      simpa [buildLines, Nat.add_assoc, Nat.add_comm 1 j] using this

lemma data_prefix_citeOf (i : Nat) (t : String) :
    ("[" ++ toString i ++ "]").data <+: (citeOf i t).data := by
  unfold citeOf
  refine ⟨(" " ++ pyStrip ⟨((splitLinesL t.data).headD []).take 80⟩).data, ?_⟩
  simp [String.data_append, List.append_assoc]

/-- C5: for `N` ranked results the assembler produces exactly `N` citation
entries whose labels are `[1]`, ..., `[N]` in order; the context block is
the double-newline join of `N` lines where line `i` (1-based) is the label
`[i]` followed by the `i`-th result's text; the empty input yields the
empty block and the empty citation list. -/
theorem build_context_snippets_spec (snips : List (String × ℚ)) :
    (build_context_snippets snips).2.length = snips.length ∧
    (∀ j (hj : j < (build_context_snippets snips).2.length),
      ("[" ++ toString (j + 1) ++ "]").data <+:
        ((build_context_snippets snips).2.get ⟨j, hj⟩).data) ∧
    (∃ lines : List String,
      (build_context_snippets snips).1 = pyJoin "\n\n" lines ∧
      lines.length = snips.length ∧
      ∀ j (hj : j < lines.length) (hj' : j < snips.length),
        lines.get ⟨j, hj⟩ =
          "[" ++ toString (j + 1) ++ "]" ++ " " ++ (snips.get ⟨j, hj'⟩).1) ∧
    (snips = [] → build_context_snippets snips = ("", [])) := by
  refine ⟨length_buildCites 1 snips, ?_, ?_, ?_⟩
  · intro j hj
    have hj' : j < snips.length := by
      simpa [build_context_snippets, length_buildCites] using hj
    show _ <+: ((buildCites 1 snips).get ⟨j, hj⟩).data
    rw [get_buildCites snips 1 j hj hj']
    rw [Nat.add_comm 1 j]
    exact data_prefix_citeOf _ _
  · refine ⟨buildLines 1 snips, rfl, length_buildLines 1 snips, ?_⟩
    intro j hj hj'
    rw [get_buildLines snips 1 j hj hj']
    unfold lineOf
    rw [Nat.add_comm 1 j]
  · intro h
    subst h
    rfl

/-! ### Lemmas about the chunker -/

lemma pyStripL_length_le (l : List Char) : (pyStripL l).length ≤ l.length := by
  unfold pyStripL
  rw [List.length_reverse]
  calc ((l.dropWhile isPySpace).reverse.dropWhile isPySpace).length
      ≤ (l.dropWhile isPySpace).reverse.length := (List.dropWhile_sublist _).length_le
    _ = (l.dropWhile isPySpace).length := List.length_reverse _
    _ ≤ l.length := (List.dropWhile_sublist _).length_le

lemma le_foldr_max {a : Nat} {l : List Nat} (h : a ∈ l) : a ≤ l.foldr max 0 := by
  induction l with
  | nil => cases h
  | cons x xs ih =>
    rcases List.mem_cons.mp h with rfl | h
    · exact Nat.le_max_left _ _
    · exact (ih h).trans (Nat.le_max_right _ _)

lemma flushIf_parts {B : Nat} (cond : Bool) (st : List (List Char) × List Char)
    (h1 : ∀ p ∈ st.1, p.length ≤ B) (h2 : st.2.length ≤ B) :
    ∀ p ∈ (flushIf cond st).1, p.length ≤ B := by
  cases cond
  · simpa [flushIf] using h1
  · intro p hp
    have hp' : p ∈ st.1 ∨ p = pyStripL st.2 := by simpa [flushIf] using hp
    rcases hp' with hp | rfl
    · exact h1 p hp
    · exact (pyStripL_length_le _).trans h2

lemma flushIf_buf {B : Nat} (cond : Bool) (st : List (List Char) × List Char)
    (h2 : st.2.length ≤ B) : (flushIf cond st).2.length ≤ B := by
  cases cond
  · simpa [flushIf] using h2
  · simp [flushIf]

lemma chunkStep_inv (max_chars M : Nat) (st : List (List Char) × List Char)
    (line : List Char) (hline : line.length ≤ M)
    (h1 : ∀ p ∈ st.1, p.length ≤ max max_chars (M + 1))
    (h2 : st.2.length ≤ max max_chars (M + 1)) :
    (∀ p ∈ (chunkStep max_chars st line).1, p.length ≤ max max_chars (M + 1)) ∧
    (chunkStep max_chars st line).2.length ≤ max max_chars (M + 1) := by
  unfold chunkStep
  have h11 := flushIf_parts (headIsHash (pyStripL line) && !st.2.isEmpty) st h1 h2
  have h12 := flushIf_buf (headIsHash (pyStripL line) && !st.2.isEmpty) st h2
  set s1 := flushIf (headIsHash (pyStripL line) && !st.2.isEmpty) st with hs1
  show (∀ p ∈ (flushIf (decide (s1.2.length + line.length + 1 > max_chars)) s1).1,
          p.length ≤ max max_chars (M + 1)) ∧
    ((flushIf (decide (s1.2.length + line.length + 1 > max_chars)) s1).2 ++ line
        ++ ['\n']).length ≤ max max_chars (M + 1)
  by_cases hc : s1.2.length + line.length + 1 > max_chars
  · rw [decide_eq_true hc]
    constructor
    · exact flushIf_parts true s1 h11 h12
    · show ((flushIf true s1).2 ++ line ++ ['\n']).length ≤ _
      have : (flushIf true s1).2 = [] := by simp [flushIf]
      rw [this]
      simp only [List.nil_append, List.length_append, List.length_cons, List.length_nil]
      have : line.length + 1 ≤ M + 1 := Nat.succ_le_succ hline
      exact (by omega : line.length + (0 + 1) ≤ M + 1).trans (Nat.le_max_right _ _)
  · rw [decide_eq_false hc]
    constructor
    · exact flushIf_parts false s1 h11 h12
    · show ((flushIf false s1).2 ++ line ++ ['\n']).length ≤ _
      have hfe : (flushIf false s1).2 = s1.2 := by simp [flushIf]
      rw [hfe]
      simp only [List.length_append, List.length_cons, List.length_nil]
      have hle : s1.2.length + line.length + 1 ≤ max_chars := Nat.not_lt.mp hc
      exact (by omega : s1.2.length + (line.length + (0 + 1)) ≤ max_chars).trans
        (Nat.le_max_left _ _)

lemma chunk_foldl_inv (max_chars M : Nat) (lines : List (List Char))
    (hM : ∀ l ∈ lines, l.length ≤ M) (st : List (List Char) × List Char)
    (h1 : ∀ p ∈ st.1, p.length ≤ max max_chars (M + 1))
    (h2 : st.2.length ≤ max max_chars (M + 1)) :
    (∀ p ∈ (lines.foldl (chunkStep max_chars) st).1, p.length ≤ max max_chars (M + 1)) ∧
    (lines.foldl (chunkStep max_chars) st).2.length ≤ max max_chars (M + 1) := by
  induction lines generalizing st with
  | nil => exact ⟨h1, h2⟩
  | cons line rest ih =>
    have hstep := chunkStep_inv max_chars M st line (hM line (List.mem_cons_self _ _)) h1 h2
    exact ih (fun l hl => hM l (List.mem_cons_of_mem _ hl)) _ hstep.1 hstep.2

lemma chunkFinal_bound {B : Nat} (st : List (List Char) × List Char)
    (h1 : ∀ p ∈ st.1, p.length ≤ B) (h2 : st.2.length ≤ B) :
    ∀ p ∈ chunkFinal st, p.length ≤ B := by
  intro p hp
  unfold chunkFinal at hp
  by_cases hcond : (!(pyStripL st.2).isEmpty) = true
  · rw [if_pos hcond] at hp
    rcases List.mem_append.mp hp with hp | hp
    · exact h1 p hp
    · rcases List.mem_singleton.mp hp with rfl
      exact (pyStripL_length_le _).trans h2
  · rw [if_neg hcond] at hp
    exact h1 p hp

/-- C9: every chunk produced by `_chunk_markdown` at the configured maximum
of 900 characters is non-empty and not whitespace-only, and its length is
bounded by `max 900 (longest line + 1)` — i.e. a chunk exceeds 900 only by
at most one line's worth of overflow; chunking is a pure function, so
re-chunking identical input yields the identical chunk sequence. -/
theorem chunk_markdown_spec (md : String) (c : String)
    (hc : c ∈ _chunk_markdown md 900) :
    pyStrip c ≠ "" ∧ c.length ≤ max 900 (maxLineLen md + 1) ∧
    _chunk_markdown md 900 = _chunk_markdown md 900 := by
  have hfold := chunk_foldl_inv 900 (maxLineLen md) (splitLinesL md.data)
    (fun l hl => le_foldr_max (List.mem_map_of_mem List.length hl)) ([], [])
    (fun p hp => absurd hp (List.not_mem_nil p)) (Nat.zero_le _)
  unfold _chunk_markdown at hc
  obtain ⟨l, hl, rfl⟩ := List.mem_map.mp hc
  obtain ⟨hmem, hne⟩ := List.mem_filter.mp hl
  refine ⟨?_, ?_, rfl⟩
  · intro h
    have hdata : pyStripL l = [] := congrArg String.data h
    rw [hdata] at hne
    simp at hne
  · show l.length ≤ _
    exact chunkFinal_bound _ hfold.1 hfold.2 l hmem

theorem chunk_markdown_spec_witness :
    ("hi" : String) ∈ _chunk_markdown "hi" 900 ∧
    (pyStrip "hi" ≠ "" ∧ ("hi" : String).length ≤ max 900 (maxLineLen "hi" + 1) ∧
     _chunk_markdown "hi" 900 = _chunk_markdown "hi" 900) :=
  ⟨by decide, chunk_markdown_spec "hi" "hi" (by decide)⟩

/-! ### Lemmas about the scope gate and the endpoint -/

lemma in_scope_iff (q : String) :
    in_scope q = true ↔ ∃ k ∈ ALLOWED_KEYWORDS, k.data <:+: (pyLower q).data := by
  unfold in_scope
  simp only [List.any_eq_true, decide_eq_true_eq]

lemma inquiry_refusal_of_not_in_scope (retr : Option (List (String × ℚ)))
    (gen : GenResult) (q : String) (hq : pyStrip q ≠ "")
    (h : in_scope (pyStrip q) = false) : inquiry retr gen q = refusalResponse := by
  unfold inquiry
  rw [if_neg hq, if_neg (by simp [h])]

lemma inquiry_ne_refusal_of_in_scope (retr : Option (List (String × ℚ)))
    (gen : GenResult) (q : String) (hq : pyStrip q ≠ "")
    (h : in_scope (pyStrip q) = true) : inquiry retr gen q ≠ refusalResponse := by
  unfold inquiry
  rw [if_neg hq, if_pos h]
  cases gen <;> intro hcontra <;>
    simpa [refusalResponse] using congrArg InquiryResponse.citations hcontra

lemma lineOf_data_ne_empty (i : Nat) (t : String) : (lineOf i t).data ≠ [] := by
  unfold lineOf
  rw [String.data_append, String.data_append, String.data_append, String.data_append]
  intro h
  rcases List.append_eq_nil.mp h with ⟨h1, -⟩
  rcases List.append_eq_nil.mp h1 with ⟨h2, -⟩
  rcases List.append_eq_nil.mp h2 with ⟨h3, -⟩
  rcases List.append_eq_nil.mp h3 with ⟨h4, -⟩
  exact absurd h4 (by decide)

lemma pyJoin_cons_ne_empty (sep x : String) (xs : List String)
    (hx : x.data ≠ []) : (pyJoin sep (x :: xs)).data ≠ [] := by
  cases xs with
  | nil => simpa [pyJoin] using hx
  | cons y ys =>
    show ((x ++ sep ++ pyJoin sep (y :: ys))).data ≠ []
    rw [String.data_append, String.data_append]
    intro h
    exact hx (List.append_eq_nil.mp (List.append_eq_nil.mp h).1).1

lemma context_empty_iff_cites_empty (retr : Option (List (String × ℚ))) :
    ((contextAndCites retr).2 = [] ↔ (contextAndCites retr).1 = "") := by
  cases retr with
  | none => simp [contextAndCites]
  | some rs =>
    cases rs with
    | nil => simp [contextAndCites, build_context_snippets, buildCites, buildLines, pyJoin]
    | cons x xs =>
      obtain ⟨t, s⟩ := x
      constructor
      · intro h
        exact absurd h (by simp [contextAndCites, build_context_snippets, buildCites])
      · intro h
        exfalso
        have hd : (pyJoin "\n\n" (lineOf 1 t :: buildLines 2 xs)).data ≠ [] :=
          pyJoin_cons_ne_empty _ _ _ (lineOf_data_ne_empty 1 t)
        exact hd (congrArg String.data h)

/-- C8: on the generation path the response carries the `citations` field
holding the assembled citation list, and that list is empty exactly when
the assembled context block is empty (no store, no results, or retrieval
failure) — citation entries accompany the answer only when the context
block was non-empty. -/
theorem citations_iff_nonempty_context (q : String) (retr : Option (List (String × ℚ)))
    (gen : GenResult) (hq : pyStrip q ≠ "") (hs : in_scope (pyStrip q) = true) :
    (inquiry retr gen q).citations = some (contextAndCites retr).2 ∧
    ((contextAndCites retr).2 = [] ↔ (contextAndCites retr).1 = "") := by
  refine ⟨?_, context_empty_iff_cites_empty retr⟩
  unfold inquiry
  rw [if_neg hq, if_pos hs]
  cases gen <;> rfl

theorem citations_iff_nonempty_context_witness :
    pyStrip "use" ≠ "" ∧ in_scope (pyStrip "use") = true ∧
    ((inquiry (some []) (.ok "ctx") "use").citations =
        some (contextAndCites (some ([] : List (String × ℚ)))).2 ∧
     ((contextAndCites (some ([] : List (String × ℚ)))).2 = [] ↔
        (contextAndCites (some ([] : List (String × ℚ)))).1 = "")) :=
  ⟨by decide, by decide,
   citations_iff_nonempty_context "use" (some []) (.ok "ctx") (by decide) (by decide)⟩

/-- C7 (amended): when the chat-completion call fails, the endpoint returns
the fixed fallback reply with the `demo_fallback` note and the error string
— identically for every question, with no topic-hint lookup and no
inspection of any generator text — rather than raising. -/
theorem generation_failure_fallback (q : String) (retr : Option (List (String × ℚ)))
    (e : String) (hq : pyStrip q ≠ "") (hs : in_scope (pyStrip q) = true) :
    inquiry retr (.err e) q =
      ⟨demo_reply, some (contextAndCites retr).2, some "demo_fallback", some e⟩ := by
  unfold inquiry
  rw [if_neg hq, if_pos hs]

theorem generation_failure_fallback_witness :
    pyStrip "How do I charge the device?" ≠ "" ∧
    in_scope (pyStrip "How do I charge the device?") = true ∧
    inquiry (some []) (.err "boom") "How do I charge the device?" =
      ⟨demo_reply, some (contextAndCites (some ([] : List (String × ℚ)))).2,
       some "demo_fallback", some "boom"⟩ :=
  ⟨by decide, by decide,
   generation_failure_fallback "How do I charge the device?" (some []) "boom"
     (by decide) (by decide)⟩

/-- C7 counterexample: a successful generator response whose text indicates
that no usable context was found is returned verbatim (after
normalization); the code performs no phrase matching on the response and
substitutes neither a topic hint nor an apology. -/
theorem generation_no_context_counterexample :
    (inquiry (some []) (.ok "I could not find relevant context for this question.")
        "How do I pair the device?").answer =
      "I could not find relevant context for this question." ∧
    (inquiry (some []) (.ok "I could not find relevant context for this question.")
        "How do I pair the device?").answer ≠ demo_reply :=
  ⟨by decide, by decide⟩

/-- C1 (amended): a non-blank question is refused with the fixed
out-of-scope reply exactly when no allowed keyword occurs as a contiguous
substring of its lowercased text (`in_scope` false); matching is by
substring, not by tokens or similarity.  In particular "What's the capital
of France?" contains no allowed keyword and is refused. -/
theorem scope_refusal_substring_iff (retr : Option (List (String × ℚ))) (gen : GenResult)
    (q : String) (hq : pyStrip q ≠ "") :
    ((inquiry retr gen q = refusalResponse) ↔ in_scope (pyStrip q) = false) ∧
    inquiry retr gen "What\x27s the capital of France?" = refusalResponse := by
  constructor
  · constructor
    · intro h
      by_cases hs : in_scope (pyStrip q) = true
      · exact absurd h (inquiry_ne_refusal_of_in_scope retr gen q hq hs)
      · exact Bool.eq_false_iff.mpr hs
    · intro h
      exact inquiry_refusal_of_not_in_scope retr gen q hq h
  · exact inquiry_refusal_of_not_in_scope retr gen _ (by decide) (by decide)

theorem scope_refusal_substring_iff_witness :
    pyStrip "banana" ≠ "" ∧
    (((inquiry (some []) (.ok "a") "banana" = refusalResponse) ↔
        in_scope (pyStrip "banana") = false) ∧
     inquiry (some []) (.ok "a") "What\x27s the capital of France?" = refusalResponse) :=
  ⟨by decide, scope_refusal_substring_iff (some []) (.ok "a") "banana" (by decide)⟩

/-- C1 counterexample: "museum" has no lowercase alphabetic token matching
the allowed-topic vocabulary exactly or within similarity cutoff 0.76 (and
a fortiori none within any higher cutoff of the spec's 0.76–0.80 range),
so the spec's criterion says it is refused; but the request is not refused
— the substring gate finds the keyword "use" inside "museum". -/
theorem spec_token_criterion_counterexample :
    noVocabTokenMatch 76 100 "museum" = true ∧
    inquiry (some []) (.ok "answer text") "museum" ≠ refusalResponse :=
  ⟨by decide, by decide⟩

/-- C2 (amended): the code has no greeting stage — "hello" contains no
allowed keyword, so for every retrieval and generation outcome it receives
the same fixed out-of-scope refusal reply as any other unmatched
question. -/
theorem hello_gets_refusal (retr : Option (List (String × ℚ))) (gen : GenResult) :
    inquiry retr gen "hello" = refusalResponse :=
  inquiry_refusal_of_not_in_scope retr gen _ (by decide) (by decide)

/-- C2 counterexample: "hello" is answered with the fixed refusal reply
itself, not a distinct friendly greeting reply. -/
theorem greeting_claim_counterexample :
    inquiry (some []) (.ok "greeting text") "hello" = refusalResponse ∧
    (inquiry (some []) (.ok "greeting text") "hello").answer = scope_refusal_reply :=
  ⟨by decide, by decide⟩

/-- C3 (amended): there is no state-indicator lookup anywhere in the code —
"Is the LED solid green?" contains no allowed keyword, so for every
retrieval and generation outcome it receives the fixed out-of-scope refusal
reply; no deterministic specialized answer exists. -/
theorem led_question_gets_refusal (retr : Option (List (String × ℚ))) (gen : GenResult) :
    inquiry retr gen "Is the LED solid green?" = refusalResponse :=
  inquiry_refusal_of_not_in_scope retr gen _ (by decide) (by decide)

/-- C3 counterexample: "Is the LED solid green?" fails the keyword gate and
is answered with the fixed refusal reply — not a specialized answer
resolving any (green, solid) lookup entry. -/
theorem specialized_lookup_counterexample :
    in_scope (pyStrip "Is the LED solid green?") = false ∧
    inquiry (some []) (.ok "led text") "Is the LED solid green?" = refusalResponse ∧
    (inquiry (some []) (.ok "led text") "Is the LED solid green?").answer =
      scope_refusal_reply :=
  ⟨by decide, by decide, by decide⟩

/-- C6 (amended): `ingest_faqs` rewrites the store file in place (truncate,
then write) rather than writing to a new location and renaming: on a
successful run the observable store states are the previous content, a
truncated empty file, and then the new payload; when ingestion fails
(missing FAQ document or embedding failure) nothing is written and the
previously stored state is unchanged. -/
theorem ingest_faqs_inplace_write (faq : Option String) (embedOk : Bool)
    (dump : List String → String) (prev : Option String) :
    ((faq = none ∨ embedOk = false) → (ingest_faqs faq embedOk dump prev).states = [prev]) ∧
    (∀ md, faq = some md → embedOk = true →
      (ingest_faqs faq embedOk dump prev).states =
        [prev, some "", some (dump ((_chunk_markdown md 900).map _clean))]) := by
  constructor
  · intro h
    cases faq with
    | none => rfl
    | some md =>
      rcases h with h | h
      · exact absurd h (by simp)
      · simp [ingest_faqs, h]
  · intro md hf he
    subst hf
    subst he
    rfl

/-- C6 counterexample: during a successful re-ingestion over a previous
store "OLD" producing payload "NEW", a reader can observe the truncated
(empty) store file — a state that is neither the previous store nor the
complete new one, i.e. a write in progress. -/
theorem ingest_atomicity_counterexample :
    some "" ∈ (ingest_faqs (some "# faq\nbody") true (fun _ => "NEW") (some "OLD")).states ∧
    (some "" : Option String) ≠ some "OLD" ∧ (some "" : Option String) ≠ some "NEW" := by
  refine ⟨?_, by decide, by decide⟩
  simp [ingest_faqs]

/-- C10: the scope gate is case-insensitive substring containment — a
non-blank (whitespace-trimmed) question proceeds past the refusal gate
exactly when some member of `ALLOWED_KEYWORDS` occurs as a contiguous
substring of the lowercased question; in particular "Is the museum open?"
contains the keyword "use" inside the unrelated word "museum" and proceeds
to retrieval. -/
theorem in_scope_substring_gate (q : String) (retr : Option (List (String × ℚ)))
    (gen : GenResult) (hq : pyStrip q = q) (hne : q ≠ "") :
    ((inquiry retr gen q ≠ refusalResponse) ↔
      ∃ k ∈ ALLOWED_KEYWORDS, k.data <:+: (pyLower q).data) ∧
    in_scope "Is the museum open?" = true ∧
    ("use" : String).data <:+: (pyLower "Is the museum open?").data ∧
    inquiry retr gen "Is the museum open?" ≠ refusalResponse := by
  refine ⟨?_, by decide, by decide,
    inquiry_ne_refusal_of_in_scope retr gen _ (by decide) (by decide)⟩
  rw [← in_scope_iff]
  constructor
  · intro h
    by_cases hs : in_scope (pyStrip q) = true
    · rw [← hq]; exact hs
    · exact absurd
        (inquiry_refusal_of_not_in_scope retr gen q (by rw [hq]; exact hne)
          (Bool.eq_false_iff.mpr hs)) h
  · intro h
    exact inquiry_ne_refusal_of_in_scope retr gen q (by rw [hq]; exact hne)
      (by rw [hq]; exact h)

theorem in_scope_substring_gate_witness :
    pyStrip "charge it" = "charge it" ∧ ("charge it" : String) ≠ "" ∧
    (((inquiry (some []) (.ok "a2") "charge it" ≠ refusalResponse) ↔
        ∃ k ∈ ALLOWED_KEYWORDS, k.data <:+: (pyLower "charge it").data) ∧
     in_scope "Is the museum open?" = true ∧
     ("use" : String).data <:+: (pyLower "Is the museum open?").data ∧
     inquiry (some []) (.ok "a2") "Is the museum open?" ≠ refusalResponse) :=
  ⟨by decide, by decide,
   in_scope_substring_gate "charge it" (some []) (.ok "a2") (by decide) (by decide)⟩
